import Mathlib

/-!
Shallow embedding of the logdash go-sdk asynchronous delivery pipeline:
the per-name metric accumulator (`http_metrics.go`), the generic async
processor (`async_processor`), the HTTP transport decision logic
(`http_client.go`), the log sequence numbering (`http_logger.go`) and the
lifecycle aggregation (`logger.go`, `logdash.go`).
-/

namespace Logdash

/-! ## Data model: metric entries (http_metrics.go) -/

/-- Go: `metricOperationSet = "set"`. -/
def metricOperationSet : String := "set"

/-- Go: `metricOperationMutate = "change"`. -/
def metricOperationMutate : String := "change"

/-- Go struct `metricEntry` (http_metrics.go). The float64 `Value` field is
modelled as a rational; the accumulator only adds and replaces values, and
the additions are performed in the same order as in the source. -/
structure MetricEntry where
  timestamp : String
  name : String
  value : ℚ
  operation : String
deriving Repr, DecidableEq

/-! ## Per-name accumulator worker (http_metrics.go, `accumulate`)

The worker owns a single `accumulatedEntry` and an `outputChan` pointer
that is non-nil exactly when there is accumulated data to offer to the
sending loop.  `inputOpen` tracks whether the worker still reads from its
input channel `c` (it sets `c = nil` once the input closes), `finished`
records that the `LOOP` has been left. -/

structure AccWorker where
  outputEnabled : Bool
  acc : MetricEntry
  inputOpen : Bool
  finished : Bool
deriving Repr, DecidableEq

/-- Initial worker state for metric `name` (http_metrics.go lines 106-113):
`accumulatedEntry.Name = name; accumulatedEntry.Operation = metricOperationMutate`,
all other fields are Go zero values. -/
def accInit (name : String) : AccWorker :=
  { outputEnabled := false
    acc := { timestamp := "", name := name, value := 0, operation := metricOperationMutate }
    inputOpen := true
    finished := false }

/-- The merge of a newly received entry into the accumulated entry
(http_metrics.go lines 139-150): the timestamp is always overwritten;
a `set` entry replaces the value and the operation; a `change` entry adds
to the value and leaves the operation unchanged. -/
def mergeEntry (acc entry : MetricEntry) : MetricEntry :=
  let acc := { acc with timestamp := entry.timestamp }
  if entry.operation = metricOperationSet then
    { acc with value := entry.value, operation := metricOperationSet }
  else if entry.operation = metricOperationMutate then
    { acc with value := acc.value + entry.value }
  else
    acc

/-- One select-arm firing of the worker loop.  `recv entry senderReady`
models `case entry, ok := <-c` with `ok = true`, where `senderReady` tells
whether the non-blocking direct handoff `m.sendingAccumulatedChan <- entry`
inside the nested select would succeed; `recvClosed` models `ok = false`;
`handoff` models `case outputChan <- accumulatedEntry` (only enabled when
`outputChan` is non-nil). -/
inductive AccEvent where
  | recv (entry : MetricEntry) (senderReady : Bool)
  | recvClosed
  | handoff
deriving Repr, DecidableEq

/-- One step of the worker state machine; the returned list holds the
entries emitted to `sendingAccumulatedChan` during the step (zero or one).
Events that the Go select could not fire in the given state are no-ops. -/
def accStep (s : AccWorker) : AccEvent → AccWorker × List MetricEntry
  | .recv entry senderReady =>
      if s.finished || !s.inputOpen then (s, [])
      else if !s.outputEnabled && senderReady then
        -- direct non-blocking handoff of the fresh entry, state unchanged
        (s, [entry])
      else
        ({ s with acc := mergeEntry s.acc entry, outputEnabled := true }, [])
  | .recvClosed =>
      if s.finished || !s.inputOpen then (s, [])
      else if !s.outputEnabled then
        ({ s with inputOpen := false, finished := true }, [])
      else
        ({ s with inputOpen := false }, [])
  | .handoff =>
      if s.finished || !s.outputEnabled then (s, [])
      else
        ({ s with outputEnabled := false
                  acc := { s.acc with value := 0, operation := metricOperationMutate }
                  finished := !s.inputOpen }, [s.acc])

/-- Run the worker over a list of events, collecting every emitted entry. -/
def accRun (s : AccWorker) : List AccEvent → AccWorker × List MetricEntry
  | [] => (s, [])
  | e :: es =>
      let (s', out) := accStep s e
      let (s'', outs) := accRun s' es
      (s'', out ++ outs)

/-- A `Set(name, v)` metric entry as built by `sendOperation`. -/
def setEntry (name : String) (v : ℚ) (ts : String) : MetricEntry :=
  { timestamp := ts, name := name, value := v, operation := metricOperationSet }

/-- A `Mutate(name, v)` metric entry as built by `sendOperation`. -/
def mutEntry (name : String) (v : ℚ) (ts : String) : MetricEntry :=
  { timestamp := ts, name := name, value := v, operation := metricOperationMutate }

/-- The event "a `Mutate` entry arrives while the sender is busy". -/
def mutEvent (name : String) (p : ℚ × String) : AccEvent :=
  .recv (mutEntry name p.1 p.2) false

/-! ## Go errors -/

/-- A Go error is modelled as the list of its component messages
(`errors.Join` keeps every component); the Go `nil` error is `none` at
type `Option GoErr`. -/
abbrev GoErr := List String

/-- Go: `errChannelOverflow = errors.New("channel overflow")`. -/
def errChannelOverflow : GoErr := ["channel overflow"]

/-- Go: `ErrAlreadyClosed`, returned by a duplicate close/shutdown. -/
def ErrAlreadyClosed : GoErr := ["already closed"]

/-! ## Log levels (log_level.go) and the httpLogger error handler -/

/-- Go: `logLevelError logLevel = "error"`. -/
def logLevelError : String := "error"

/-- Go: `logLevelVerbose logLevel = "verbose"`. -/
def logLevelVerbose : String := "verbose"

/-- The error handler installed by `newHTTPLogger` (http_logger.go lines
40-46): both branches log through `internalLogger.Error`, i.e. at the
`error` level; the overflow branch uses the fixed drop message. -/
def httpLoggerErrorHandler (err : GoErr) : String × String :=
  if err = errChannelOverflow then
    (logLevelError, "Log dropped due to channel overflow")
  else
    (logLevelError, "Failed to send log")

/-! ## Bounded async queue (asyncProcessor, src/unnamed/part_000) -/

/-- Overflow policy (logdash.go): `OverflowPolicyBlock` or `OverflowPolicyDrop`. -/
inductive OverflowPolicy where
  | block
  | drop
deriving Repr, DecidableEq

/-- A Go channel as seen through the `processChan` field: an open buffered
channel with its buffer contents and capacity, a closed channel, or the
`nil` channel that `safeClear` leaves behind. -/
inductive GoChan (α : Type) where
  | opened (buf : List α) (cap : Nat)
  | closedChan (buf : List α) (cap : Nat)
  | nilChan
deriving Repr, DecidableEq

/-- Result of the non-blocking send attempt `select { case ch <- item: ...
default: }`: the send succeeds yielding the new channel, the default branch
fires, or — for a closed channel — the send panics. -/
inductive TrySendRes (α : Type) where
  | ok (c : GoChan α)
  | notReady
  | panicked
deriving Repr, DecidableEq

/-- Go semantics of the non-blocking send: a buffered open channel accepts
when its buffer has room; an unbuffered (capacity 0) open channel accepts
exactly when a receiver is ready; a send on a closed channel panics; a send
on the nil channel is never ready. -/
def chanTrySend {α : Type} (c : GoChan α) (item : α) (receiverReady : Bool) :
    TrySendRes α :=
  match c with
  | .opened buf cap =>
      if buf.length < cap then .ok (.opened (buf ++ [item]) cap)
      else if cap == 0 && receiverReady then .ok (.opened buf cap)
      else .notReady
  | .closedChan _ _ => .panicked
  | .nilChan => .notReady

/-- Result of the blocking send `ch <- item`: it completes (possibly after
waiting for the consumer), blocks forever on a nil channel, or panics on a
closed channel. -/
inductive BlockSendRes where
  | completes
  | blocksForever
  | panicked
deriving Repr, DecidableEq

/-- Go semantics of the blocking send. -/
def chanBlockSend {α : Type} (c : GoChan α) : BlockSendRes :=
  match c with
  | .opened _ _ => .completes
  | .closedChan _ _ => .panicked
  | .nilChan => .blocksForever

/-- The mutable state of `asyncProcessor` relevant to `send`/`Close`/
`Shutdown`: the `processChan` field (set to nil by `safeClear`) and the
overflow policy.  The mutex serialises `send` against `Close`/`Shutdown`,
so one step of the model corresponds to one critical section. -/
structure AsyncProcessor (α : Type) where
  processChan : GoChan α
  overflowPolicy : OverflowPolicy
deriving Repr, DecidableEq

/-- `newAsyncProcessor(bufferSize, ...)`: an empty open channel of the given
capacity, blocking policy by default. -/
def newAsyncProcessor (α : Type) (bufferSize : Nat) : AsyncProcessor α :=
  { processChan := .opened [] bufferSize, overflowPolicy := .block }

/-- Outcome of one `asyncProcessor.send` call. -/
inductive SendOutcome where
  | sentNow
      -- the non-blocking select accepted the item immediately
  | sentBlocking
      -- the queue was full under Block policy: the caller blocked, then the
      -- item was accepted
  | droppedOverflow
      -- full queue under Drop policy: the item was discarded, the error
      -- handler was invoked with `errChannelOverflow`, `send` returned
  | blocksForever
      -- blocking send on the nil channel: the caller never returns
  | panicked
deriving Repr, DecidableEq

/-- Whether the outcome made the caller block. -/
def SendOutcome.isBlocking : SendOutcome → Bool
  | .sentBlocking => true
  | .blocksForever => true
  | _ => false

/-- `asyncProcessor.send` (src/unnamed/part_000 lines 142-157): first the
non-blocking select; on the default branch, Drop invokes the error handler
with `errChannelOverflow` and returns, Block falls through to the blocking
send.  Returns the processor state after the call, the outcome, and the
list of error-handler invocations made during the call. -/
def procSend {α : Type} (p : AsyncProcessor α) (item : α) (receiverReady : Bool) :
    AsyncProcessor α × SendOutcome × List GoErr :=
  match chanTrySend p.processChan item receiverReady with
  | .ok c => ({ p with processChan := c }, .sentNow, [])
  | .panicked => (p, .panicked, [])
  | .notReady =>
      if p.overflowPolicy = .drop then
        (p, .droppedOverflow, [errChannelOverflow])
      else
        match chanBlockSend p.processChan with
        | .completes => (p, .sentBlocking, [])
        | .blocksForever => (p, .blocksForever, [])
        | .panicked => (p, .panicked, [])

/-- `asyncProcessor.safeClear` (lines 167-176): a nil `processChan` means a
prior close happened, so return `ErrAlreadyClosed`; otherwise close the
channel and set the field to nil (one atomic step under the write lock). -/
def safeClear {α : Type} (p : AsyncProcessor α) : AsyncProcessor α × Option GoErr :=
  match p.processChan with
  | .nilChan => (p, some ErrAlreadyClosed)
  | _ => ({ p with processChan := .nilChan }, none)

/-- Run `n` successive close transitions (`Close`, or the `safeClear` part
of `Shutdown`) and collect their results. -/
def runClears {α : Type} (p : AsyncProcessor α) : Nat → List (Option GoErr)
  | 0 => []
  | n + 1 =>
      let (p', r) := safeClear p
      r :: runClears p' n

/-- Which of the two events of the `select` in `Shutdown` fires first:
the context's done channel (with the context's error), or the processor's
`stoppedChan` (the worker finished draining). -/
inductive ShutdownWinner where
  | ctxDone (e : GoErr)
  | stopped
deriving Repr, DecidableEq

/-- `asyncProcessor.Shutdown` (lines 179-192): the close transition under
the lock, then a select over `ctx.Done()` and `stoppedChan`. -/
def procShutdown {α : Type} (p : AsyncProcessor α) (w : ShutdownWinner) :
    AsyncProcessor α × Option GoErr :=
  match safeClear p with
  | (p', some e) => (p', some e)
  | (p', none) =>
      match w with
      | .ctxDone e => (p', some e)
      | .stopped => (p', none)

/-- The background worker `process` (lines 132-139): `for item := range ch`
processes every item left in the channel, in FIFO order, continuing past
processing errors, until the closed channel is drained. -/
def workerDrain {α : Type} : List α → List α
  | [] => []
  | x :: xs => x :: workerDrain xs

/-! ## Metrics pipeline front end (http_metrics.go) -/

/-- The state of `httpMetrics` visible to `sendOperation`/`stopDispatcher`:
the `stopping` flag guarded by `dispatchChanMu`, the entries handed to
`dispatchChan`, and the messages written to the internal verbose channel. -/
structure MetricsPipeline where
  stopping : Bool
  dispatched : List MetricEntry
  verboseLog : List String
deriving Repr, DecidableEq

/-- `httpMetrics.sendOperation` (http_metrics.go lines 165-182): under the
lock, a stopping pipeline only writes `"Failed to send metric: ..."` to the
internal verbose channel and returns; otherwise the entry goes to the
dispatcher. -/
def sendOperation (m : MetricsPipeline) (entry : MetricEntry) : MetricsPipeline :=
  if m.stopping then
    { m with verboseLog := m.verboseLog ++ ["Failed to send metric: already closed"] }
  else
    { m with dispatched := m.dispatched ++ [entry] }

/-- `httpMetrics.stopDispatcher` (lines 195-207): under the lock, a second
call returns `ErrAlreadyClosed`; the first call flips `stopping` and closes
the dispatch channel. -/
def stopDispatcher (m : MetricsPipeline) : MetricsPipeline × Option GoErr :=
  if m.stopping then (m, some ErrAlreadyClosed)
  else ({ m with stopping := true }, none)

/-- Run `n` successive `stopDispatcher` transitions (`Close`, or the first
half of `Shutdown`) and collect their results. -/
def runStops (m : MetricsPipeline) : Nat → List (Option GoErr)
  | 0 => []
  | n + 1 =>
      let (m', r) := stopDispatcher m
      r :: runStops m' n

/-- `httpMetrics.Shutdown` (lines 219-232): `stopDispatcher`, then a select
over `ctx.Done()` and `stoppedChan`. -/
def metricsShutdown (m : MetricsPipeline) (w : ShutdownWinner) :
    MetricsPipeline × Option GoErr :=
  match stopDispatcher m with
  | (m', some e) => (m', some e)
  | (m', none) =>
      match w with
      | .ctxDone e => (m', some e)
      | .stopped => (m', none)

/-! ## HTTP transport decision logic (http_client.go, `sendData`) -/

/-- Outcome of `c.client.Do(req)`: a response with a status code, or a
transport error (after the retryable client gave up). -/
inductive DoResult where
  | resp (status : Nat)
  | fail (msg : String)
deriving Repr, DecidableEq

/-- `httpClient.sendData` (http_client.go lines 47-75) as a function of the
fallible steps: marshal, request construction, the HTTP exchange, and the
final status check `if resp.StatusCode >= 400`. -/
def sendData (marshalOk reqOk : Bool) (r : DoResult) : Option GoErr :=
  if !marshalOk then some ["failed to marshal"]
  else if !reqOk then some ["failed to create request"]
  else
    match r with
    | .fail msg => some ["failed to send: " ++ msg]
    | .resp status =>
        if status ≥ 400 then some ["server returned error status"]
        else none

/-! ## Log sequence numbers (http_logger.go, `syncLog`) -/

/-- Wrap an integer to the two's-complement int64 range, the semantics of
`atomic.Int64.Add`. -/
def int64Wrap (z : ℤ) : ℤ := (z + 2 ^ 63) % 2 ^ 64 - 2 ^ 63

/-- The sequence number the `k`-th `syncLog` call stores (`k ≥ 1`):
`l.sequenceNumber.Add(1) % (1 << 32)` — the counter after the `k`-th atomic
increment, reduced by Go's truncated `%` (which agrees with `Int.tmod`). -/
def seqNumber (k : ℕ) : ℤ := Int.tmod (int64Wrap k) (2 ^ 32)

/-- The `logEntry` built by the `k`-th `syncLog` call (http_logger.go lines
53-62). -/
structure LogEntryRec where
  createdAt : String
  level : String
  message : String
  sequenceNumber : ℤ
deriving Repr, DecidableEq

/-- `syncLog` of the `k`-th call on one `httpLogger` instance. -/
def syncLogEntry (k : ℕ) (ts level msg : String) : LogEntryRec :=
  { createdAt := ts, level := level, message := msg, sequenceNumber := seqNumber k }

/-! ## Lifecycle aggregation (logger.go `Logger.Close`, logdash.go
`Logdash.Close`) -/

/-- `errors.Join` over the non-nil errors collected in the loop: nil when
no sink failed, otherwise an error holding every component. -/
def errorsJoin (errs : List GoErr) : Option GoErr :=
  if errs.isEmpty then none else some errs.flatten

/-- `Logger.Close` (logger.go lines 149-158): call every sink's `Close`,
collect the non-nil errors, return `errors.Join` of them. -/
def loggerClose (sinkResults : List (Option GoErr)) : Option GoErr :=
  errorsJoin (sinkResults.filterMap id)

/-- `errgroup.Group.Wait` semantics: `r` is a possible result of waiting on
goroutines that returned `results` — nil when all succeeded, otherwise the
first error to occur, which is some single non-nil element (scheduling
decides which). -/
def errgroupWait (results : List (Option GoErr)) (r : Option GoErr) : Prop :=
  if results.all (· = none) then r = none
  else r ∈ results ∧ r ≠ none

instance (results : List (Option GoErr)) (r : Option GoErr) :
    Decidable (errgroupWait results r) := by
  unfold errgroupWait; infer_instance

/-- `Logdash.Close` (src/unnamed/part_003 lines 501-506): an errgroup over
`Logger.Close` and `Metrics.Close`; `r` is a possible returned error. -/
def logdashClose (loggerRes metricsRes : Option GoErr) (r : Option GoErr) : Prop :=
  errgroupWait [loggerRes, metricsRes] r

instance (a b r : Option GoErr) : Decidable (logdashClose a b r) := by
  unfold logdashClose; infer_instance

lemma accRun_append (s : AccWorker) (es1 es2 : List AccEvent) :
    accRun s (es1 ++ es2) =
      ((accRun (accRun s es1).1 es2).1,
        (accRun s es1).2 ++ (accRun (accRun s es1).1 es2).2) := by
  induction es1 generalizing s with
  | nil => simp [accRun]
  | cons e es ih =>
      simp [accRun, ih, List.append_assoc]

/-- Receiving any entry while the sender is busy (`senderReady = false`)
merges it into the accumulated entry, emits nothing and enables the output. -/
lemma accStep_recv_busy (s : AccWorker) (entry : MetricEntry)
    (hin : s.inputOpen = true) (hfin : s.finished = false) :
    accStep s (.recv entry false) =
      ({ s with acc := mergeEntry s.acc entry, outputEnabled := true }, []) := by
  simp [accStep, hin, hfin]

/-- Effect of a burst of `Mutate` entries received while the sender is busy:
no emission, the value increases by the sum, the operation, name and the
open/finished flags are unchanged, the output becomes enabled as soon as the
burst is nonempty. -/
lemma accRun_mutates (name : String) (vs : List (ℚ × String)) :
    ∀ s : AccWorker, s.inputOpen = true → s.finished = false →
      (accRun s (vs.map (mutEvent name))).2 = [] ∧
      (accRun s (vs.map (mutEvent name))).1.acc.value
          = s.acc.value + (vs.map Prod.fst).sum ∧
      (accRun s (vs.map (mutEvent name))).1.acc.operation = s.acc.operation ∧
      (accRun s (vs.map (mutEvent name))).1.acc.name = s.acc.name ∧
      (accRun s (vs.map (mutEvent name))).1.inputOpen = true ∧
      (accRun s (vs.map (mutEvent name))).1.finished = false ∧
      (accRun s (vs.map (mutEvent name))).1.outputEnabled
          = (s.outputEnabled || !vs.isEmpty) := by
  induction vs with
  | nil => intro s hin hfin; simp [accRun, hin, hfin]
  | cons p ps ih =>
      intro s hin hfin
      have hmerge :
          mergeEntry s.acc (mutEntry name p.1 p.2) =
            { s.acc with timestamp := p.2, value := s.acc.value + p.1 } := by
        simp [mergeEntry, mutEntry, metricOperationSet, metricOperationMutate]
      have hstep : accStep s (mutEvent name p) =
          ({ s with acc := { s.acc with timestamp := p.2, value := s.acc.value + p.1 },
                    outputEnabled := true }, []) := by
        rw [mutEvent, accStep_recv_busy s (mutEntry name p.1 p.2) hin hfin, hmerge]
      have ihs := ih { s with
        acc := { s.acc with timestamp := p.2, value := s.acc.value + p.1 },
        outputEnabled := true } hin hfin
      obtain ⟨o1, o2, o3, o4, o5, o6, o7⟩ := ihs
      simp only [List.map_cons, accRun, hstep, List.nil_append]
      refine ⟨o1, ?_, ?_, ?_, o5, o6, ?_⟩
      · rw [o2]; simp; ring
      · simpa using o3
      · simpa using o4
      · simp [o7]

/-- Merging a `set` entry replaces value and operation. -/
lemma mergeEntry_set (acc : MetricEntry) (name : String) (v : ℚ) (ts : String) :
    mergeEntry acc (setEntry name v ts) =
      { acc with timestamp := ts, value := v, operation := metricOperationSet } := by
  simp [mergeEntry, setEntry]

/-- The merge never touches the `Name` field. -/
lemma mergeEntry_name (acc e : MetricEntry) : (mergeEntry acc e).name = acc.name := by
  simp only [mergeEntry]
  split_ifs <;> rfl

/-- No step of the worker changes the accumulated entry's `Name`. -/
lemma accStep_name (s : AccWorker) (e : AccEvent) :
    (accStep s e).1.acc.name = s.acc.name := by
  cases e with
  | recv entry senderReady =>
      simp only [accStep]
      split_ifs <;> simp [mergeEntry_name]
  | recvClosed =>
      simp only [accStep]
      split_ifs <;> rfl
  | handoff =>
      simp only [accStep]
      split_ifs <;> rfl

/-- The `Name` field is invariant across any run. -/
lemma accRun_name (es : List AccEvent) :
    ∀ s : AccWorker, (accRun s es).1.acc.name = s.acc.name := by
  induction es with
  | nil => intro s; rfl
  | cons e es ih =>
      intro s
      simp only [accRun]
      rw [ih (accStep s e).1, accStep_name]

lemma accRun_single (s : AccWorker) (e : AccEvent) :
    accRun s [e] = ((accStep s e).1, (accStep s e).2) := by
  simp [accRun]

/-- A handoff from a busy, unfinished worker emits the accumulated entry
and resets value and operation — and nothing else. -/
lemma accStep_handoff (s : AccWorker) (hfin : s.finished = false)
    (hout : s.outputEnabled = true) :
    accStep s .handoff =
      ({ s with outputEnabled := false,
                acc := { s.acc with value := 0, operation := metricOperationMutate },
                finished := !s.inputOpen }, [s.acc]) := by
  simp [accStep, hfin, hout]

/-- After a successful close, every further close transition of the async
processor reports `ErrAlreadyClosed`. -/
lemma runClears_closed {α : Type} (n : Nat) :
    ∀ p : AsyncProcessor α, p.processChan = .nilChan →
      runClears p n = List.replicate n (some ErrAlreadyClosed) := by
  induction n with
  | zero => intro p _; rfl
  | succ n ih =>
      intro p hp
      have hclear : safeClear p = (p, some ErrAlreadyClosed) := by
        simp [safeClear, hp]
      simp [runClears, hclear, ih p hp, List.replicate_succ]

/-- After a successful stop, every further `stopDispatcher` reports
`ErrAlreadyClosed`. -/
lemma runStops_stopped (n : Nat) :
    ∀ m : MetricsPipeline, m.stopping = true →
      runStops m n = List.replicate n (some ErrAlreadyClosed) := by
  induction n with
  | zero => intro m _; rfl
  | succ n ih =>
      intro m hm
      have hstop : stopDispatcher m = (m, some ErrAlreadyClosed) := by
        simp [stopDispatcher, hm]
      simp [runStops, hstop, ih m hm, List.replicate_succ]

/-- The background worker processes every remaining queued item, in FIFO
order. -/
lemma workerDrain_eq {α : Type} (buf : List α) : workerDrain buf = buf := by
  induction buf with
  | nil => rfl
  | cons x xs ih => simp [workerDrain, ih]

/-- Below the wrap point the stored sequence number equals the call index. -/
lemma seqNumber_eq_of_lt (k : ℕ) (hk : k < 2 ^ 32) : seqNumber k = k := by
  have hwrap : int64Wrap k = k := by
    unfold int64Wrap
    have h1 : (0 : ℤ) ≤ (k : ℤ) + 2 ^ 63 := by positivity
    have h2 : (k : ℤ) + 2 ^ 63 < 2 ^ 64 := by
      have hk' : (k : ℤ) < 2 ^ 32 := by exact_mod_cast hk
      have : (2 : ℤ) ^ 32 + 2 ^ 63 < 2 ^ 64 := by norm_num
      linarith
    rw [Int.emod_eq_of_lt h1 h2]
    ring
  unfold seqNumber
  rw [hwrap]
  have hcast : ((2 : ℤ) ^ 32) = ((2 ^ 32 : ℕ) : ℤ) := by norm_cast
  rw [hcast]
  have htm : Int.tmod (k : ℤ) ((2 ^ 32 : ℕ) : ℤ) = ((k % 2 ^ 32 : ℕ) : ℤ) := rfl
  rw [htm, Nat.mod_eq_of_lt hk]

/-! ## Claim theorems -/

/-- C1.  Set dominates the coalescing window: from any accumulated state of
the worker (input still open, worker alive), receiving `Set(name, v)`, then
any finite burst of `Mutate` entries, then `Set(name, w)`, all while the
sender is busy (so nothing is delivered in between), emits nothing and
leaves exactly one pending accumulated entry whose operation is `"set"` and
whose value is `w`. -/
theorem set_dominates_window (s : AccWorker) (name : String) (v w : ℚ)
    (ts1 ts2 : String) (vs : List (ℚ × String))
    (hin : s.inputOpen = true) (hfin : s.finished = false) :
    (accRun s (AccEvent.recv (setEntry name v ts1) false ::
        (vs.map (mutEvent name) ++ [AccEvent.recv (setEntry name w ts2) false]))).2 = [] ∧
    (accRun s (AccEvent.recv (setEntry name v ts1) false ::
        (vs.map (mutEvent name) ++ [AccEvent.recv (setEntry name w ts2) false]))).1.outputEnabled
      = true ∧
    (accRun s (AccEvent.recv (setEntry name v ts1) false ::
        (vs.map (mutEvent name) ++ [AccEvent.recv (setEntry name w ts2) false]))).1.acc.operation
      = metricOperationSet ∧
    (accRun s (AccEvent.recv (setEntry name v ts1) false ::
        (vs.map (mutEvent name) ++ [AccEvent.recv (setEntry name w ts2) false]))).1.acc.value
      = w := by
  have hstep1 : accStep s (.recv (setEntry name v ts1) false) =
      ({ s with
          acc := { s.acc with timestamp := ts1, value := v, operation := metricOperationSet },
          outputEnabled := true }, []) := by
    rw [accStep_recv_busy s _ hin hfin, mergeEntry_set]
  obtain ⟨m1, m2, m3, m4, m5, m6, m7⟩ :=
    accRun_mutates name vs
      { s with
        acc := { s.acc with timestamp := ts1, value := v, operation := metricOperationSet },
        outputEnabled := true } hin hfin
  have hstep2 := accStep_recv_busy _ (setEntry name w ts2) m5 m6
  rw [mergeEntry_set] at hstep2
  simp only [accRun, hstep1, accRun_append, accRun_single, hstep2, m1]
  simp

/-- C2.  Net-effect preservation: from a fresh accumulation window (value
0, operation `"change"`), a nonempty burst of `Mutate(name, v1…vn)` entries
received while the sender is busy emits nothing and leaves one pending
accumulated entry with operation `"change"` and value `v1 + … + vn`. -/
theorem mutate_window_sums (s : AccWorker) (name : String) (vs : List (ℚ × String))
    (hval : s.acc.value = 0) (hop : s.acc.operation = metricOperationMutate)
    (hin : s.inputOpen = true) (hfin : s.finished = false) (hne : vs ≠ []) :
    (accRun s (vs.map (mutEvent name))).2 = [] ∧
    (accRun s (vs.map (mutEvent name))).1.outputEnabled = true ∧
    (accRun s (vs.map (mutEvent name))).1.acc.operation = metricOperationMutate ∧
    (accRun s (vs.map (mutEvent name))).1.acc.value = (vs.map Prod.fst).sum := by
  obtain ⟨m1, m2, m3, m4, m5, m6, m7⟩ := accRun_mutates name vs s hin hfin
  refine ⟨m1, ?_, by rw [m3, hop], by rw [m2, hval, zero_add]⟩
  rw [m7]
  cases vs with
  | nil => exact absurd rfl hne
  | cons p ps => simp

/-- Witness for C1 at a concrete input: `Set(5)`, `Mutate(2)`, `Set(7)`
coalesce to a single pending `set 7`. -/
theorem set_dominates_window_witness :
    (accInit "x").inputOpen = true ∧ (accInit "x").finished = false ∧
    (accRun (accInit "x") (AccEvent.recv (setEntry "x" 5 "t1") false ::
        ([((2 : ℚ), "t2")].map (mutEvent "x") ++
          [AccEvent.recv (setEntry "x" 7 "t3") false]))).2 = [] ∧
    (accRun (accInit "x") (AccEvent.recv (setEntry "x" 5 "t1") false ::
        ([((2 : ℚ), "t2")].map (mutEvent "x") ++
          [AccEvent.recv (setEntry "x" 7 "t3") false]))).1.acc.operation
      = metricOperationSet ∧
    (accRun (accInit "x") (AccEvent.recv (setEntry "x" 5 "t1") false ::
        ([((2 : ℚ), "t2")].map (mutEvent "x") ++
          [AccEvent.recv (setEntry "x" 7 "t3") false]))).1.acc.value = 7 := by
  have h := set_dominates_window (accInit "x") "x" 5 7 "t1" "t3" [(2, "t2")] rfl rfl
  exact ⟨rfl, rfl, h.1, h.2.2.1, h.2.2.2⟩

/-- Witness for C2 at a concrete input: `Mutate(3)` then `Mutate(4)`
coalesce to a single pending `change 7`. -/
theorem mutate_window_sums_witness :
    ([((3 : ℚ), "a"), ((4 : ℚ), "b")] : List (ℚ × String)) ≠ [] ∧
    (accRun (accInit "m") ([((3 : ℚ), "a"), ((4 : ℚ), "b")].map (mutEvent "m"))).2 = [] ∧
    (accRun (accInit "m") ([((3 : ℚ), "a"), ((4 : ℚ), "b")].map (mutEvent "m"))).1.acc.operation
      = metricOperationMutate ∧
    (accRun (accInit "m") ([((3 : ℚ), "a"), ((4 : ℚ), "b")].map (mutEvent "m"))).1.acc.value
      = ([((3 : ℚ), "a"), ((4 : ℚ), "b")].map Prod.fst).sum := by
  have h := mutate_window_sums (accInit "m") "m" [(3, "a"), (4, "b")] rfl rfl rfl rfl
    (by decide)
  exact ⟨by decide, h.1, h.2.2.1, h.2.2.2⟩

/-- C10 (amended).  Worker invariants: (i) the accumulated entry's `Name`
always equals the worker's own metric name; (ii) a handoff emits exactly
the accumulated entry and resets the value to 0 and the operation to
`"change"` — the `Name` and `Timestamp` fields are the state that survives;
(iii) a window containing only `Mutate` entries is delivered, on handoff,
as a single entry with operation `"change"` whose value is the window's
sum. -/
theorem accumulator_reset_and_name_invariant :
    (∀ (nm : String) (es : List AccEvent),
        (accRun (accInit nm) es).1.acc.name = nm) ∧
    (∀ s : AccWorker, s.finished = false → s.outputEnabled = true →
        accStep s .handoff =
          ({ s with outputEnabled := false,
                    acc := { s.acc with value := 0, operation := metricOperationMutate },
                    finished := !s.inputOpen }, [s.acc])) ∧
    (∀ (nm : String) (s : AccWorker) (vs : List (ℚ × String)),
        s.acc.value = 0 → s.acc.operation = metricOperationMutate →
        s.inputOpen = true → s.finished = false → vs ≠ [] →
        ∃ e : MetricEntry,
          (accRun s (vs.map (mutEvent nm) ++ [AccEvent.handoff])).2 = [e] ∧
          e.operation = metricOperationMutate ∧
          e.value = (vs.map Prod.fst).sum ∧
          e.name = s.acc.name) := by
  refine ⟨?_, ?_, ?_⟩
  · intro nm es
    rw [accRun_name]
    rfl
  · intro s hfin hout
    exact accStep_handoff s hfin hout
  · intro nm s vs hval hop hin hfin hne
    obtain ⟨m1, m2, m3, m4, m5, m6, m7⟩ := accRun_mutates nm vs s hin hfin
    have hout : (accRun s (vs.map (mutEvent nm))).1.outputEnabled = true := by
      rw [m7]
      cases vs with
      | nil => exact absurd rfl hne
      | cons p ps => simp
    have hhand := accStep_handoff _ m6 hout
    refine ⟨(accRun s (vs.map (mutEvent nm))).1.acc, ?_, ?_, ?_, m4⟩
    · rw [accRun_append, accRun_single, hhand, m1]
      simp
    · rw [m3, hop]
    · rw [m2, hval, zero_add]

/-- Witness for C10 at concrete inputs: a run keeps the name `"w"`; a
concrete busy state hands off its entry and resets; a `Mutate(2)` window
delivers one `change 2` entry. -/
theorem accumulator_reset_and_name_invariant_witness :
    (accRun (accInit "w") [AccEvent.handoff]).1.acc.name = "w" ∧
    accStep
        { outputEnabled := true,
          acc := { timestamp := "t", name := "w", value := 3,
                   operation := metricOperationSet },
          inputOpen := true, finished := false } .handoff =
      ({ outputEnabled := false,
         acc := { timestamp := "t", name := "w", value := 0,
                  operation := metricOperationMutate },
         inputOpen := true, finished := false },
        [{ timestamp := "t", name := "w", value := 3,
           operation := metricOperationSet }]) ∧
    (∃ e : MetricEntry,
        (accRun (accInit "w") ([((2 : ℚ), "u")].map (mutEvent "w") ++
            [AccEvent.handoff])).2 = [e] ∧
        e.operation = metricOperationMutate ∧
        e.value = ([((2 : ℚ), "u")].map Prod.fst).sum ∧
        e.name = (accInit "w").acc.name) := by
  refine ⟨accumulator_reset_and_name_invariant.1 "w" [.handoff], ?_, ?_⟩
  · exact accumulator_reset_and_name_invariant.2.1 _ rfl rfl
  · exact accumulator_reset_and_name_invariant.2.2 "w" (accInit "w") [(2, "u")]
      rfl rfl rfl rfl (by decide)

/-- Counterexample to C10 as stated: the `Timestamp` field of the
accumulated entry is not reset by a handoff — after delivering the window
closed by `Set("x", 1, "T1")`, the worker's state still carries `"T1"`,
which differs from the initial (zero-value) timestamp, so state other than
`Name` survives a handoff. -/
theorem accumulator_timestamp_survives_handoff :
    (accRun (accInit "x")
        [AccEvent.recv (setEntry "x" 1 "T1") false, AccEvent.handoff]).1.acc.timestamp
      = "T1" ∧
    (accInit "x").acc.timestamp = "" ∧
    ("T1" : String) ≠ "" := by
  refine ⟨?_, rfl, by decide⟩
  rfl

/-- C3 (amended).  Sequence numbers of one `httpLogger` instance increase
strictly with the call order as long as fewer than `2^32` entries have been
produced: `syncLog` stores `sequenceNumber.Add(1) % (1 << 32)`, which is
the call index itself below the wrap point. -/
theorem sequence_numbers_increase_before_wrap (k1 k2 : ℕ)
    (ts1 l1 m1 ts2 l2 m2 : String)
    (_h1 : 1 ≤ k1) (h2 : k1 < k2) (h3 : k2 < 2 ^ 32) :
    (syncLogEntry k1 ts1 l1 m1).sequenceNumber
      < (syncLogEntry k2 ts2 l2 m2).sequenceNumber := by
  simp only [syncLogEntry]
  rw [seqNumber_eq_of_lt k1 (lt_trans h2 h3), seqNumber_eq_of_lt k2 h3]
  exact_mod_cast h2

/-- Witness for C3: calls 1 and 2 carry sequence numbers 1 < 2. -/
theorem sequence_numbers_increase_before_wrap_witness :
    (syncLogEntry 1 "t1" "info" "a").sequenceNumber
      < (syncLogEntry 2 "t2" "info" "b").sequenceNumber :=
  sequence_numbers_increase_before_wrap 1 2 "t1" "info" "a" "t2" "info" "b"
    (by norm_num) (by norm_num) (by norm_num)

/-- Counterexample to C3 as stated: the `% (1 << 32)` in `syncLog` wraps
the counter, so call `2^32` stores sequence number 0, which is not greater
than the `2^32 - 1` stored by the preceding call — the sequence numbers of
one logger instance are not strictly monotonic over all calls. -/
theorem sequence_number_wraps_to_zero :
    (syncLogEntry 4294967295 "t" "info" "a").sequenceNumber = 4294967295 ∧
    (syncLogEntry 4294967296 "t" "info" "b").sequenceNumber = 0 ∧
    ¬ (syncLogEntry 4294967295 "t" "info" "a").sequenceNumber
        < (syncLogEntry 4294967296 "t" "info" "b").sequenceNumber := by
  refine ⟨by decide, by decide, by decide⟩

/-- C4 (amended).  `sendData` returns nil exactly when marshalling and
request construction succeed and the HTTP exchange yields a response with
status below 400; every status `≥ 400` (and every transport failure) is
mapped to a non-nil error.  In particular 1xx and 3xx responses — though
not 2xx — yield nil. -/
theorem sendData_error_iff_status_ge_400 (mk rq : Bool) (r : DoResult) :
    sendData mk rq r = none ↔
      mk = true ∧ rq = true ∧ ∃ s : Nat, r = .resp s ∧ s < 400 := by
  cases mk <;> cases rq <;> cases r <;> simp [sendData]

/-- Counterexample to C4 as stated: a 300 response is not in the 2xx range,
yet `sendData` returns nil for it (the code only checks `StatusCode >= 400`). -/
theorem sendData_nil_for_3xx :
    sendData true true (.resp 300) = none ∧ ¬ (200 ≤ 300 ∧ 300 ≤ 299) := by
  refine ⟨rfl, by omega⟩

/-- C5 (amended).  After a close transition, a `send` never delivers the
entry and never panics: on the async processor the `processChan` field is
nil, so under `Drop` the entry is discarded with one `errChannelOverflow`
error-handler call (which the httpLogger handler logs at `error` level),
and under `Block` the caller blocks forever; on the metrics pipeline a late
`sendOperation` dispatches nothing and reports only on the internal verbose
channel. -/
theorem late_send_not_delivered :
    (∀ (α : Type) (p : AsyncProcessor α) (item : α) (rr : Bool),
        p.processChan = .nilChan →
        (procSend p item rr).1 = p ∧
        (procSend p item rr).2.1 ≠ .sentNow ∧
        (procSend p item rr).2.1 ≠ .sentBlocking ∧
        (procSend p item rr).2.1 ≠ .panicked ∧
        (p.overflowPolicy = .drop →
            (procSend p item rr).2 = (.droppedOverflow, [errChannelOverflow]) ∧
            httpLoggerErrorHandler errChannelOverflow
              = (logLevelError, "Log dropped due to channel overflow")) ∧
        (p.overflowPolicy = .block →
            (procSend p item rr).2 = (.blocksForever, []))) ∧
    (∀ (m : MetricsPipeline) (entry : MetricEntry), m.stopping = true →
        (sendOperation m entry).dispatched = m.dispatched ∧
        (sendOperation m entry).verboseLog
          = m.verboseLog ++ ["Failed to send metric: already closed"]) := by
  constructor
  · intro α p item rr hp
    cases hpol : p.overflowPolicy <;>
      simp_all [procSend, chanTrySend, chanBlockSend, hp, httpLoggerErrorHandler]
  · intro m entry hm
    simp [sendOperation, hm]

/-- Witness for C5: a closed drop-policy processor discards a late send
with one overflow report; a stopping metrics pipeline only logs verbosely. -/
theorem late_send_not_delivered_witness :
    (procSend (⟨.nilChan, .drop⟩ : AsyncProcessor String) "line" false).2.1
      ≠ .sentNow ∧
    (procSend (⟨.nilChan, .drop⟩ : AsyncProcessor String) "line" false).2.1
      ≠ .panicked ∧
    (sendOperation ⟨true, [], []⟩ (setEntry "x" 1 "t")).dispatched = [] ∧
    (sendOperation ⟨true, [], []⟩ (setEntry "x" 1 "t")).verboseLog
      = ["Failed to send metric: already closed"] := by
  have h1 := late_send_not_delivered.1 String ⟨.nilChan, .drop⟩ "line" false rfl
  have h2 := late_send_not_delivered.2 ⟨true, [], []⟩ (setEntry "x" 1 "t") rfl
  exact ⟨h1.2.1, h1.2.2.2.1, h2.1, by simpa using h2.2⟩

/-- Counterexample to C5 as stated: a late send on the async processor
(log pipeline) under `Drop` policy is reported through the error handler,
which the httpLogger routes to the internal `error` channel, not the
`verbose` channel. -/
theorem late_send_error_level_report :
    (procSend (⟨.nilChan, .drop⟩ : AsyncProcessor String) "log line" false).2
      = (.droppedOverflow, [errChannelOverflow]) ∧
    (httpLoggerErrorHandler errChannelOverflow).1 = logLevelError ∧
    logLevelError ≠ logLevelVerbose := by
  refine ⟨rfl, rfl, by decide⟩

/-- C6.  Under `Drop` policy with a full queue and a blocked consumer,
`send` leaves the queue unchanged, invokes the error handler exactly once
with `errChannelOverflow`, and returns without blocking. -/
theorem drop_policy_full_queue (α : Type) (p : AsyncProcessor α) (item : α)
    (buf : List α) (c : Nat)
    (hchan : p.processChan = .opened buf c) (hfull : buf.length = c)
    (hpol : p.overflowPolicy = .drop) :
    procSend p item false = (p, .droppedOverflow, [errChannelOverflow]) ∧
    SendOutcome.isBlocking .droppedOverflow = false := by
  have htry : chanTrySend p.processChan item false = .notReady := by
    simp [chanTrySend, hchan, hfull]
  constructor
  · simp [procSend, htry, hpol]
  · rfl

/-- Witness for C6: capacity-1 queue holding one item drops the next send
with a single overflow report. -/
theorem drop_policy_full_queue_witness :
    procSend (⟨.opened ["a"] 1, .drop⟩ : AsyncProcessor String) "b" false
      = (⟨.opened ["a"] 1, .drop⟩, .droppedOverflow, [errChannelOverflow]) :=
  (drop_policy_full_queue String ⟨.opened ["a"] 1, .drop⟩ "b" ["a"] 1
    rfl rfl rfl).1

/-- C7.  Exactly one close succeeds: on a not-yet-closed async processor
(resp. metrics pipeline), a sequence of `n + 1` close transitions (`Close`,
or the closing half of `Shutdown`) returns nil first and
`ErrAlreadyClosed` for every later call. -/
theorem close_exactly_once :
    (∀ (α : Type) (p : AsyncProcessor α) (n : ℕ), p.processChan ≠ .nilChan →
        runClears p (n + 1) = none :: List.replicate n (some ErrAlreadyClosed)) ∧
    (∀ (m : MetricsPipeline) (n : ℕ), m.stopping = false →
        runStops m (n + 1) = none :: List.replicate n (some ErrAlreadyClosed)) := by
  constructor
  · intro α p n hp
    cases hc : p.processChan with
    | nilChan => exact absurd hc hp
    | opened buf c =>
        have hclear : safeClear p = ({ p with processChan := .nilChan }, none) := by
          simp [safeClear, hc]
        have hrest := runClears_closed (α := α) n { p with processChan := .nilChan } rfl
        simp [runClears, hclear, hrest]
    | closedChan buf c =>
        have hclear : safeClear p = ({ p with processChan := .nilChan }, none) := by
          simp [safeClear, hc]
        have hrest := runClears_closed (α := α) n { p with processChan := .nilChan } rfl
        simp [runClears, hclear, hrest]
  · intro m n hm
    have hstop : stopDispatcher m = ({ m with stopping := true }, none) := by
      simp [stopDispatcher, hm]
    have hrest := runStops_stopped n { m with stopping := true } rfl
    simp [runStops, hstop, hrest]

/-- Witness for C7: three closes on a fresh processor / pipeline give
`[nil, ErrAlreadyClosed, ErrAlreadyClosed]`. -/
theorem close_exactly_once_witness :
    runClears (newAsyncProcessor String 2) 3
      = none :: List.replicate 2 (some ErrAlreadyClosed) ∧
    runStops ⟨false, [], []⟩ 3
      = none :: List.replicate 2 (some ErrAlreadyClosed) :=
  ⟨close_exactly_once.1 String (newAsyncProcessor String 2) 2 (by simp [newAsyncProcessor]),
    close_exactly_once.2 ⟨false, [], []⟩ 2 rfl⟩

/-- C8.  `Shutdown` blocks until the drain finishes or the context fires,
whichever first: if the worker's stop signal wins the select, it returns
nil; if the context's done channel wins, it returns the context's error,
and the worker — which was never forcibly stopped — still drains every
queued item in FIFO order; a shutdown after a prior close returns
`ErrAlreadyClosed` without waiting.  The metrics pipeline's `Shutdown`
behaves identically. -/
theorem shutdown_drains_or_deadline :
    (∀ (α : Type) (p : AsyncProcessor α) (buf : List α) (c : ℕ) (e : GoErr),
        p.processChan = .opened buf c →
        procShutdown p .stopped = ({ p with processChan := .nilChan }, none) ∧
        procShutdown p (.ctxDone e) = ({ p with processChan := .nilChan }, some e) ∧
        workerDrain buf = buf) ∧
    (∀ (α : Type) (p : AsyncProcessor α) (w : ShutdownWinner),
        p.processChan = .nilChan → procShutdown p w = (p, some ErrAlreadyClosed)) ∧
    (∀ (m : MetricsPipeline) (e : GoErr), m.stopping = false →
        metricsShutdown m .stopped = ({ m with stopping := true }, none) ∧
        metricsShutdown m (.ctxDone e) = ({ m with stopping := true }, some e)) := by
  refine ⟨?_, ?_, ?_⟩
  · intro α p buf c e hp
    have hclear : safeClear p = ({ p with processChan := .nilChan }, none) := by
      simp [safeClear, hp]
    exact ⟨by simp [procShutdown, hclear], by simp [procShutdown, hclear],
      workerDrain_eq buf⟩
  · intro α p w hp
    have hclear : safeClear p = (p, some ErrAlreadyClosed) := by
      simp [safeClear, hp]
    simp [procShutdown, hclear]
  · intro m e hm
    have hstop : stopDispatcher m = ({ m with stopping := true }, none) := by
      simp [stopDispatcher, hm]
    exact ⟨by simp [metricsShutdown, hstop], by simp [metricsShutdown, hstop]⟩

/-- Witness for C8 on a concrete two-item queue and a concrete deadline
error. -/
theorem shutdown_drains_or_deadline_witness :
    procShutdown (⟨.opened ["a", "b"] 4, .block⟩ : AsyncProcessor String) .stopped
      = (⟨.nilChan, .block⟩, none) ∧
    procShutdown (⟨.opened ["a", "b"] 4, .block⟩ : AsyncProcessor String)
        (.ctxDone ["context deadline exceeded"])
      = (⟨.nilChan, .block⟩, some ["context deadline exceeded"]) ∧
    workerDrain ["a", "b"] = ["a", "b"] :=
  shutdown_drains_or_deadline.1 String ⟨.opened ["a", "b"] 4, .block⟩
    ["a", "b"] 4 ["context deadline exceeded"] rfl

/-- C9 (amended).  `Logger.Close` aggregates with `errors.Join`, so the
error it returns contains every failing sink's message; but the top-level
`Logdash.Close` waits on an errgroup, whose result is nil or a single
component error — never a combination. -/
theorem close_error_aggregation :
    (∀ (sinkResults : List (Option GoErr)) (e : GoErr) (s : String),
        some e ∈ sinkResults → s ∈ e →
        ∃ joined : GoErr, loggerClose sinkResults = some joined ∧ s ∈ joined) ∧
    (∀ (a b r : Option GoErr), logdashClose a b r → r = none ∨ r = a ∨ r = b) := by
  constructor
  · intro sinkResults e s he hs
    have hmem : e ∈ sinkResults.filterMap id := by
      exact List.mem_filterMap.mpr ⟨some e, he, rfl⟩
    have hne : (sinkResults.filterMap id).isEmpty = false := by
      cases h : sinkResults.filterMap id with
      | nil => rw [h] at hmem; exact absurd hmem (List.not_mem_nil e)
      | cons x xs => rfl
    refine ⟨(sinkResults.filterMap id).flatten, ?_, ?_⟩
    · simp [loggerClose, errorsJoin, hne]
    · exact List.mem_flatten.mpr ⟨e, hmem, hs⟩
  · intro a b r h
    unfold logdashClose errgroupWait at h
    by_cases hall : ([a, b] : List (Option GoErr)).all (· = none)
    · rw [if_pos hall] at h
      exact Or.inl h
    · rw [if_neg hall] at h
      have h1 : r = a ∨ r = b := by
        have hmem := h.1
        simpa using hmem
      rcases h1 with h1 | h1
      · exact Or.inr (Or.inl h1)
      · exact Or.inr (Or.inr h1)

/-- Witness for C9: with both of the Logger's sinks failing, the joined
error contains each message; an errgroup result equals one component. -/
theorem close_error_aggregation_witness :
    (∃ joined : GoErr,
        loggerClose [some ["console failed"], some ["http failed"]] = some joined ∧
        "http failed" ∈ joined) ∧
    ((some ["e1"] : Option GoErr) = none ∨ (some ["e1"] : Option GoErr) = some ["e1"] ∨
      (some ["e1"] : Option GoErr) = some ["e2"]) :=
  ⟨close_error_aggregation.1 [some ["console failed"], some ["http failed"]]
      ["http failed"] "http failed" (by decide) (by decide),
    close_error_aggregation.2 (some ["e1"]) (some ["e2"]) (some ["e1"]) (by decide)⟩

/-- Counterexample to C9 as stated: when both the Logger and the Metrics
sink fail, one possible result of `Logdash.Close`'s errgroup is the logger
error alone, which does not contain the metrics error — the caller does not
receive the combined errors of every sink. -/
theorem logdash_close_single_error :
    logdashClose (some ["logger: sink close failed"]) (some ["metrics: close failed"])
      (some ["logger: sink close failed"]) ∧
    "metrics: close failed" ∉ (["logger: sink close failed"] : GoErr) := by
  refine ⟨by decide, by decide⟩

end Logdash
